import Mathlib

/-!
Shallow embedding of the prediction adjustment pipeline of
src/prediction/prediction_pipeline.py (class OptimizedPredictionPipeline).
Probabilities are embedded as exact rationals; the entropy based confidence
score, which uses a real logarithm, is embedded over the reals.  Failures of
Python dict and list indexing (KeyError, IndexError) are embedded as
Option.none.
-/

namespace LumbarPipeline

/-- Helper for the Python substring test: checks that the second list of
characters is an initial segment of the first. -/
def charsStartWith : List Char → List Char → Bool
  | _, [] => true
  | [], _ :: _ => false
  | c :: cs, p :: ps => (c = p) && charsStartWith cs ps

/-- Python substring containment on lists of characters. -/
def charsContain : List Char → List Char → Bool
  | [], pat => charsStartWith [] pat
  | c :: cs, pat => charsStartWith (c :: cs) pat || charsContain cs pat

/-- Embedding of the Python expression `pat in s` for strings. -/
def strContains (s pat : String) : Bool :=
  charsContain s.data pat.data

/-- Embedding of a Python dict lookup `d[key]` over a fixed association table:
none embeds a KeyError. -/
def lookupKey {β : Type} : String → List (String × β) → Option β
  | _, [] => none
  | s, (k, v) :: rest => if k = s then some v else lookupKey s rest

/-- The condition weight table set up in the constructor (lines 20 to 26). -/
def condition_weights : List (String × ℚ) :=
  [("Spinal Canal Stenosis", 1),
   ("Left Neural Foraminal Narrowing", 95/100),
   ("Right Neural Foraminal Narrowing", 95/100),
   ("Left Subarticular Stenosis", 93/100),
   ("Right Subarticular Stenosis", 93/100)]

/-- The level weight table set up in the constructor (lines 29 to 35). -/
def level_weights : List (String × ℚ) :=
  [("L1_L2", 1), ("L2_L3", 98/100), ("L3_L4", 95/100),
   ("L4_L5", 90/100), ("L5_S1", 92/100)]

/-- The log loss table set up in the constructor (lines 38 to 60). -/
def log_loss_thresholds : List (String × List (String × ℚ)) :=
  [("Spinal Canal Stenosis",
     [("L1_L2", 1067/10000), ("L2_L3", 4514/10000), ("L3_L4", 5757/10000),
      ("L4_L5", 8928/10000), ("L5_S1", 2164/10000)]),
   ("Neural Foraminal Narrowing",
     [("L1_L2", 2200/10000), ("L2_L3", 4635/10000), ("L3_L4", 9959/10000),
      ("L4_L5", 11089/10000), ("L5_S1", 10936/10000)]),
   ("Subarticular Stenosis",
     [("L1_L2", 2285/10000), ("L2_L3", 5337/10000), ("L3_L4", 9766/10000),
      ("L4_L5", 11551/10000), ("L5_S1", 7856/10000)])]

/-- The condition index map of preprocess_input (lines 72 to 78). -/
def condition_map : List (String × Nat) :=
  [("Spinal Canal Stenosis", 0),
   ("Left Neural Foraminal Narrowing", 1),
   ("Right Neural Foraminal Narrowing", 2),
   ("Left Subarticular Stenosis", 3),
   ("Right Subarticular Stenosis", 4)]

/-- The level index map of preprocess_input (lines 83 to 85). -/
def level_map : List (String × Nat) :=
  [("L1_L2", 0), ("L2_L3", 1), ("L3_L4", 2), ("L4_L5", 3), ("L5_S1", 4)]

/-- The keys of the condition weight table in insertion order, as used by
batch_predict for reverse lookup. -/
def conditionNames : List String := condition_weights.map Prod.fst

/-- The keys of the level weight table in insertion order. -/
def levelNames : List String := level_weights.map Prod.fst

/-- Embedding of `torch.zeros(5)` followed by setting index i to 1. -/
def onehot5 (i : Nat) : List ℚ := (List.replicate 5 0).set i 1

/-- Embedding of preprocess_input (lines 62 to 89): the image is moved to the
device unchanged, the labels are turned into one hot vectors; an unknown label
raises a KeyError at the dict lookup, embedded as none. -/
def preprocess_input {Img : Type} (image : Img) (condition level : String) :
    Option (Img × List ℚ × List ℚ) := do
  let ci ← lookupKey condition condition_map
  let li ← lookupKey level level_map
  pure (image, onehot5 ci, onehot5 li)

/-- Embedding of `F.normalize(v, p=1, dim=1)` on a single row: each component
is divided by the maximum of the L1 norm and the default eps 1e-12. -/
def l1normalize (v : ℚ × ℚ × ℚ) : ℚ × ℚ × ℚ :=
  let n := max (|v.1| + |v.2.1| + |v.2.2|) (1 / 10 ^ 12)
  (v.1 / n, v.2.1 / n, v.2.2 / n)

/-- Family key resolution of apply_condition_level_adjustments
(lines 103 to 108). -/
def conditionKey (condition : String) : String :=
  if strContains condition "Neural Foraminal Narrowing" then
    "Neural Foraminal Narrowing"
  else if strContains condition "Subarticular Stenosis" then
    "Subarticular Stenosis"
  else condition

/-- The nested dict lookup `self.log_loss_thresholds[key][level]`
(line 110); none embeds a KeyError at either level. -/
def lookupLogLoss (key lv : String) : Option ℚ :=
  (lookupKey key log_loss_thresholds).bind (fun row => lookupKey lv row)

/-- `self.condition_weights.get(condition, 0.95)` (line 99). -/
def conditionWeight (c : String) : ℚ := (lookupKey c condition_weights).getD (95/100)

/-- `self.level_weights.get(level, 0.90)` (line 100). -/
def levelWeight (l : String) : ℚ := (lookupKey l level_weights).getD (90/100)

/-- Embedding of apply_condition_level_adjustments (lines 91 to 125) on a
single row of probabilities, ordered (Normal/Mild, Moderate, Severe). -/
def apply_condition_level_adjustments (predictions : ℚ × ℚ × ℚ)
    (condition level : String) : Option (ℚ × ℚ × ℚ) := do
  let condition_weight := conditionWeight condition
  let level_weight := levelWeight level
  let log_loss_threshold ← lookupLogLoss (conditionKey condition) level
  let w := condition_weight * level_weight
  let scaled := (predictions.1 * w, predictions.2.1 * w, predictions.2.2 * w)
  let adjusted :=
    if log_loss_threshold > 8/10 then
      (scaled.1 + 1/10, scaled.2.1 * (95/100), scaled.2.2 * (9/10))
    else scaled
  pure (l1normalize adjusted)

/-- Entropy summand `x * log(x + eps)` of get_prediction_confidence
(line 133); the source fixes eps to 1e-7, kept as a parameter so that the
uniform case can also be stated with the perturbation ignored. -/
noncomputable def entropyTerm (eps x : ℝ) : ℝ := x * Real.log (x + eps)

/-- Embedding of get_prediction_confidence (lines 127 to 138) on a single
row: maximum probability times one minus the entropy normalized by log 3. -/
noncomputable def get_prediction_confidence (eps : ℝ) (p : ℝ × ℝ × ℝ) : ℝ :=
  let maxProb := max p.1 (max p.2.1 p.2.2)
  let entropy := -(entropyTerm eps p.1 + entropyTerm eps p.2.1 + entropyTerm eps p.2.2)
  maxProb * (1 - entropy / Real.log 3)

/-- The confidence of the source, applied to an exact rational row with the
eps value 1e-7 of line 133. -/
noncomputable def confQ (p : ℚ × ℚ × ℚ) : ℝ :=
  get_prediction_confidence (1 / 10 ^ 7) ((p.1 : ℝ), (p.2.1 : ℝ), (p.2.2 : ℝ))

/-- Embedding of `torch.argmax` on a single row of three scores: the index of
the first maximal value. -/
def argmax3 (v : ℚ × ℚ × ℚ) : Nat :=
  if v.2.1 ≤ v.1 ∧ v.2.2 ≤ v.1 then 0
  else if v.2.2 ≤ v.2.1 then 1 else 2

/-- Helper for `torch.argmax` over a vector: carries the running index, the
best index and the best value. -/
def argmaxAux : Nat → Nat → ℚ → List ℚ → Nat
  | _, bi, _, [] => bi
  | i, bi, bv, x :: xs =>
    if bv < x then argmaxAux (i + 1) i x xs else argmaxAux (i + 1) bi bv xs

/-- Embedding of `torch.argmax` on a one dimensional tensor: the index of the
first maximal value. -/
def argmaxList : List ℚ → Nat
  | [] => 0
  | x :: xs => argmaxAux 1 0 x xs

/-- The dictionary returned per sample by predict (lines 165 to 170) and
batch_predict (lines 206 to 211): the spec calls it PredictionResult. -/
structure PredRes where
  probabilities : ℚ × ℚ × ℚ
  confidence : ℝ
  severity_prediction : Nat
  original_probabilities : ℚ × ℚ × ℚ

/-- The shared per sample tail of predict and batch_predict: adjustment,
confidence, argmax, packaged with the original probabilities. -/
noncomputable def processSample (probs : ℚ × ℚ × ℚ) (condition level : String) :
    Option PredRes :=
  (apply_condition_level_adjustments probs condition level).map fun adj =>
    ⟨adj, confQ adj, argmax3 adj, probs⟩

/-- Embedding of predict (lines 140 to 170); the external classifier together
with the softmax of line 153 is a parameter producing one row of
probabilities. -/
noncomputable def predict {Img : Type}
    (model : Img → List ℚ → List ℚ → ℚ × ℚ × ℚ)
    (image : Img) (condition level : String) : Option PredRes := do
  let (img, ct, lt) ← preprocess_input image condition level
  processSample (model img ct lt) condition level

/-- One sample of a batch as supplied by the dataset collaborator: image,
one hot condition, one hot level, and an opaque study identifier (see the
dataset class in src/models/regression_model.py, lines 71 to 78). -/
structure Sample (Img Sid : Type) where
  image : Img
  condition : List ℚ
  level : List ℚ
  study_id : Sid

/-- The fields of a sample that batch_predict hands to the classifier
(lines 181 to 186): image, condition and level only. -/
def projSample {Img Sid : Type} (s : Sample Img Sid) : Img × List ℚ × List ℚ :=
  (s.image, s.condition, s.level)

/-- The per sample loop of batch_predict (lines 190 to 211): iterates the
samples of one batch together with the corresponding rows of the softmaxed
model output; a missing output row is an IndexError, embedded as none, and the
reverse lookups `list(keys)[idx]` are embedded as list indexing. -/
noncomputable def batchLoop {Img Sid : Type} :
    List (Sample Img Sid) → List (ℚ × ℚ × ℚ) → Option (List PredRes)
  | [], _ => some []
  | _ :: _, [] => none
  | s :: ss, p :: ps => do
    let ci ← conditionNames.get? (argmaxList s.condition)
    let li ← levelNames.get? (argmaxList s.level)
    let r ← processSample p ci li
    let rest ← batchLoop ss ps
    pure (r :: rest)

/-- Embedding of batch_predict (lines 172 to 213): the dataloader is a list
of batches, the external classifier together with its softmax is a parameter
taking the projected samples of one batch to one row of probabilities each. -/
noncomputable def batch_predict {Img Sid : Type}
    (model : List (Img × List ℚ × List ℚ) → List (ℚ × ℚ × ℚ)) :
    List (List (Sample Img Sid)) → Option (List PredRes)
  | [] => some []
  | b :: bs => do
    let rs ← batchLoop b (model (b.map projSample))
    let rest ← batch_predict model bs
    pure (rs ++ rest)

/-- Closed form of the per sample calibration, following the spec wording of
sections 4.2 and 4.3: scale by the combined weight, apply the bias correction
when the looked up log loss exceeds 0.8, then L1 normalize.  Stated separately
so that theorems can compare the source function against this recipe. -/
def specAdjusted (p : ℚ × ℚ × ℚ) (c l : String) : ℚ × ℚ × ℚ :=
  let w := conditionWeight c * levelWeight l
  let t := (lookupLogLoss (conditionKey c) l).getD 0
  l1normalize (if t > 8/10 then
      (p.1 * w + 1/10, p.2.1 * w * (95/100), p.2.2 * w * (9/10))
    else (p.1 * w, p.2.1 * w, p.2.2 * w))

/-- The condition label recovered from a one hot row by reverse lookup into
the fixed enumeration order, as batch_predict does on line 194. -/
def decodeConditionName (oh : List ℚ) : String :=
  conditionNames.getD (argmaxList oh) ""

/-- The level label recovered from a one hot row by reverse lookup into the
fixed enumeration order, as batch_predict does on line 195. -/
def decodeLevelName (oh : List ℚ) : String :=
  levelNames.getD (argmaxList oh) ""

/-- The result the per sample pipeline produces for one batch sample with
softmaxed probabilities q: decode the labels, calibrate, score.  Used to state
what each entry of the batch_predict output equals. -/
noncomputable def specSampleResult {Img Sid : Type} (s : Sample Img Sid)
    (q : ℚ × ℚ × ℚ) : PredRes :=
  let c := decodeConditionName s.condition
  let l := decodeLevelName s.level
  let adj := specAdjusted q c l
  ⟨adj, confQ adj, argmax3 adj, q⟩

/-! Helper lemmas shared by the claim theorems. -/

theorem charsStartWith_self (l : List Char) : charsStartWith l l = true := by
  induction l with
  | nil => rfl
  | cons c cs ih => simp [charsStartWith, ih]

theorem charsContain_self (l : List Char) : charsContain l l = true := by
  cases l with
  | nil => rfl
  | cons c cs => simp [charsContain, charsStartWith_self]

theorem strContains_self (s : String) : strContains s s = true :=
  charsContain_self s.data

theorem lookupKey_eq_none_iff {β : Type} (s : String) (tbl : List (String × β)) :
    lookupKey s tbl = none ↔ s ∉ tbl.map Prod.fst := by
  induction tbl with
  | nil => simp [lookupKey]
  | cons kv rest ih =>
    obtain ⟨k, v⟩ := kv
    by_cases h : k = s
    · subst h
      simp [lookupKey]
    · rw [List.map_cons]
      simp only [lookupKey, if_neg h, ih, List.mem_cons, not_or]
      exact ⟨fun hn => ⟨fun hs => h hs.symm, hn⟩, fun hn => hn.2⟩

theorem lookupKey_isSome_of_mem {β : Type} (s : String) (tbl : List (String × β))
    (h : s ∈ tbl.map Prod.fst) : ∃ v, lookupKey s tbl = some v := by
  cases hv : lookupKey s tbl with
  | none => exact absurd ((lookupKey_eq_none_iff s tbl).mp hv) (by simp [h])
  | some v => exact ⟨v, rfl⟩

theorem lookupKey_mem_values {β : Type} {s : String} {tbl : List (String × β)} {v : β}
    (h : lookupKey s tbl = some v) : v ∈ tbl.map Prod.snd := by
  induction tbl with
  | nil => simp [lookupKey] at h
  | cons kv rest ih =>
    obtain ⟨k, w⟩ := kv
    by_cases hk : k = s
    · subst hk
      simp [lookupKey] at h
      simp [h]
    · simp [lookupKey, hk] at h
      simp [ih h]

theorem mem_conditionNames_iff (c : String) :
    c ∈ conditionNames ↔
      (c = "Spinal Canal Stenosis" ∨ c = "Left Neural Foraminal Narrowing" ∨
       c = "Right Neural Foraminal Narrowing" ∨ c = "Left Subarticular Stenosis" ∨
       c = "Right Subarticular Stenosis") := by
  simp [conditionNames, condition_weights]

theorem mem_levelNames_iff (l : String) :
    l ∈ levelNames ↔
      (l = "L1_L2" ∨ l = "L2_L3" ∨ l = "L3_L4" ∨ l = "L4_L5" ∨ l = "L5_S1") := by
  simp [levelNames, level_weights]

theorem conditionWeight_bounds (c : String) (hc : c ∈ conditionNames) :
    93/100 ≤ conditionWeight c ∧ conditionWeight c ≤ 1 := by
  rw [mem_conditionNames_iff] at hc
  rcases hc with h | h | h | h | h <;> subst h <;>
    simp only [conditionWeight, lookupKey, condition_weights, String.reduceEq,
      reduceIte, Option.getD_some] <;> norm_num

theorem levelWeight_bounds (l : String) (hl : l ∈ levelNames) :
    9/10 ≤ levelWeight l ∧ levelWeight l ≤ 1 := by
  rw [mem_levelNames_iff] at hl
  rcases hl with h | h | h | h | h <;> subst h <;>
    simp only [levelWeight, lookupKey, level_weights, String.reduceEq,
      reduceIte, Option.getD_some] <;> norm_num

theorem logLoss_valid (c : String) (hc : c ∈ conditionNames) (l : String)
    (hl : l ∈ levelNames) : ∃ t, lookupLogLoss (conditionKey c) l = some t := by
  rw [mem_conditionNames_iff] at hc
  rw [mem_levelNames_iff] at hl
  have h : (lookupLogLoss (conditionKey c) l).isSome = true := by
    rcases hc with h | h | h | h | h <;> subst h <;>
      rcases hl with h | h | h | h | h <;> subst h <;> decide
  exact Option.isSome_iff_exists.mp h

theorem apply_eq_of_logLoss {c l : String} {t : ℚ}
    (h : lookupLogLoss (conditionKey c) l = some t) (p : ℚ × ℚ × ℚ) :
    apply_condition_level_adjustments p c l =
      some (l1normalize (if t > 8/10 then
          (p.1 * (conditionWeight c * levelWeight l) + 1/10,
           p.2.1 * (conditionWeight c * levelWeight l) * (95/100),
           p.2.2 * (conditionWeight c * levelWeight l) * (9/10))
        else
          (p.1 * (conditionWeight c * levelWeight l),
           p.2.1 * (conditionWeight c * levelWeight l),
           p.2.2 * (conditionWeight c * levelWeight l)))) := by
  simp [apply_condition_level_adjustments, h]

theorem apply_eq_specAdjusted {c l : String} (hc : c ∈ conditionNames)
    (hl : l ∈ levelNames) (p : ℚ × ℚ × ℚ) :
    apply_condition_level_adjustments p c l = some (specAdjusted p c l) := by
  obtain ⟨t, ht⟩ := logLoss_valid c hc l hl
  rw [apply_eq_of_logLoss ht]
  simp [specAdjusted, ht]

theorem l1normalize_props (v : ℚ × ℚ × ℚ) (h1 : 0 ≤ v.1) (h2 : 0 ≤ v.2.1)
    (h3 : 0 ≤ v.2.2) (hs : 1/10^12 ≤ v.1 + v.2.1 + v.2.2) :
    0 ≤ (l1normalize v).1 ∧ 0 ≤ (l1normalize v).2.1 ∧ 0 ≤ (l1normalize v).2.2 ∧
      (l1normalize v).1 + (l1normalize v).2.1 + (l1normalize v).2.2 = 1 := by
  have habs : |v.1| + |v.2.1| + |v.2.2| = v.1 + v.2.1 + v.2.2 := by
    rw [abs_of_nonneg h1, abs_of_nonneg h2, abs_of_nonneg h3]
  have hpos : 0 < v.1 + v.2.1 + v.2.2 := lt_of_lt_of_le (by norm_num) hs
  have hmax : max (|v.1| + |v.2.1| + |v.2.2|) (1/10^12 : ℚ) = v.1 + v.2.1 + v.2.2 := by
    rw [habs]
    exact max_eq_left hs
  simp only [l1normalize, hmax]
  refine ⟨div_nonneg h1 hpos.le, div_nonneg h2 hpos.le, div_nonneg h3 hpos.le, ?_⟩
  rw [div_add_div_same, div_add_div_same, div_self hpos.ne']

/-! Claim theorems. -/

/-- Claim C1: for every raw 3 probability distribution and valid (condition,
level) pair, apply_condition_level_adjustments scales the three probabilities
by the combined weight, resolves the condition to a family key by substring
match, looks up the family and level log loss scalar, applies the bias
correction (Severe times 0.9, Moderate times 0.95, plus 0.1 on Normal/Mild)
exactly when the scalar exceeds 0.8, and finally L1 normalizes; when the
scalar is not greater than 0.8 the pre normalization vector is exactly the
weight scaled input. -/
theorem claim_adjustment_pipeline_formula (p : ℚ × ℚ × ℚ) (c l : String)
    (hc : c ∈ conditionNames) (hl : l ∈ levelNames) :
    conditionKey c = (if strContains c "Neural Foraminal Narrowing" then
        "Neural Foraminal Narrowing"
      else if strContains c "Subarticular Stenosis" then "Subarticular Stenosis"
      else c) ∧
    ∃ t, lookupLogLoss (conditionKey c) l = some t ∧
      apply_condition_level_adjustments p c l =
        some (l1normalize (if t > 8/10 then
            (p.1 * (conditionWeight c * levelWeight l) + 1/10,
             p.2.1 * (conditionWeight c * levelWeight l) * (95/100),
             p.2.2 * (conditionWeight c * levelWeight l) * (9/10))
          else
            (p.1 * (conditionWeight c * levelWeight l),
             p.2.1 * (conditionWeight c * levelWeight l),
             p.2.2 * (conditionWeight c * levelWeight l)))) := by
  obtain ⟨t, ht⟩ := logLoss_valid c hc l hl
  exact ⟨rfl, t, ht, apply_eq_of_logLoss ht p⟩

/-- Witness for claim C1 at a concrete input. -/
theorem claim_adjustment_pipeline_formula_witness :
    ("Left Subarticular Stenosis" ∈ conditionNames) ∧ ("L4_L5" ∈ levelNames) ∧
    (conditionKey "Left Subarticular Stenosis" =
        (if strContains "Left Subarticular Stenosis" "Neural Foraminal Narrowing" then
          "Neural Foraminal Narrowing"
        else if strContains "Left Subarticular Stenosis" "Subarticular Stenosis" then
          "Subarticular Stenosis"
        else "Left Subarticular Stenosis") ∧
      ∃ t, lookupLogLoss (conditionKey "Left Subarticular Stenosis") "L4_L5" = some t ∧
        apply_condition_level_adjustments (1/2, 1/4, 1/4)
            "Left Subarticular Stenosis" "L4_L5" =
          some (l1normalize (if t > 8/10 then
              ((1/2 : ℚ) * (conditionWeight "Left Subarticular Stenosis" *
                  levelWeight "L4_L5") + 1/10,
               (1/4 : ℚ) * (conditionWeight "Left Subarticular Stenosis" *
                  levelWeight "L4_L5") * (95/100),
               (1/4 : ℚ) * (conditionWeight "Left Subarticular Stenosis" *
                  levelWeight "L4_L5") * (9/10))
            else
              ((1/2 : ℚ) * (conditionWeight "Left Subarticular Stenosis" *
                  levelWeight "L4_L5"),
               (1/4 : ℚ) * (conditionWeight "Left Subarticular Stenosis" *
                  levelWeight "L4_L5"),
               (1/4 : ℚ) * (conditionWeight "Left Subarticular Stenosis" *
                  levelWeight "L4_L5"))))) :=
  ⟨by decide, by decide,
    claim_adjustment_pipeline_formula (1/2, 1/4, 1/4) _ _ (by decide) (by decide)⟩

/-- Claim C2 (amended): the calibrated distribution is non negative and sums
to exactly 1 (hence within the 1e-6 tolerance) for every input with non
negative components whose components sum to at least 1.2e-12; the lower bound
is needed because F.normalize divides by the maximum of the L1 norm and
1e-12, so inputs with a smaller weighted mass are scaled by the constant
1e-12 instead of their own mass. -/
theorem claim_calibrated_distribution_invariant (p : ℚ × ℚ × ℚ) (c l : String)
    (h1 : 0 ≤ p.1) (h2 : 0 ≤ p.2.1) (h3 : 0 ≤ p.2.2)
    (hs : 12/10^13 ≤ p.1 + p.2.1 + p.2.2)
    (hc : c ∈ conditionNames) (hl : l ∈ levelNames) :
    ∃ r, apply_condition_level_adjustments p c l = some r ∧
      0 ≤ r.1 ∧ 0 ≤ r.2.1 ∧ 0 ≤ r.2.2 ∧ r.1 + r.2.1 + r.2.2 = 1 ∧
      |r.1 + r.2.1 + r.2.2 - 1| ≤ 1/10^6 := by
  obtain ⟨t, ht⟩ := logLoss_valid c hc l hl
  obtain ⟨hcw1, hcw2⟩ := conditionWeight_bounds c hc
  obtain ⟨hlw1, hlw2⟩ := levelWeight_bounds l hl
  rw [apply_eq_of_logLoss ht]
  set w := conditionWeight c * levelWeight l with hw
  have hw1 : 837/1000 ≤ w := by
    have := mul_le_mul hcw1 hlw1 (by norm_num) (le_trans (by norm_num) hcw1)
    linarith
  have hw0 : 0 ≤ w := le_trans (by norm_num) hw1
  by_cases hb : t > 8/10
  · rw [if_pos hb]
    have hv := l1normalize_props
      (p.1 * w + 1/10, p.2.1 * w * (95/100), p.2.2 * w * (9/10))
      (by nlinarith [mul_nonneg h1 hw0])
      (by nlinarith [mul_nonneg h2 hw0])
      (by nlinarith [mul_nonneg h3 hw0])
      (by nlinarith [mul_nonneg h1 hw0, mul_nonneg h2 hw0, mul_nonneg h3 hw0])
    exact ⟨_, rfl, hv.1, hv.2.1, hv.2.2.1, hv.2.2.2, by rw [hv.2.2.2]; norm_num⟩
  · rw [if_neg hb]
    have hsum : 1/10^12 ≤ p.1 * w + p.2.1 * w + p.2.2 * w := by
      have hk := mul_le_mul hs hw1 (by norm_num) (le_trans (by norm_num) hs)
      nlinarith [hk]
    have hv := l1normalize_props (p.1 * w, p.2.1 * w, p.2.2 * w)
      (mul_nonneg h1 hw0) (mul_nonneg h2 hw0) (mul_nonneg h3 hw0) hsum
    exact ⟨_, rfl, hv.1, hv.2.1, hv.2.2.1, hv.2.2.2, by rw [hv.2.2.2]; norm_num⟩

/-- Witness for claim C2 at a concrete input. -/
theorem claim_calibrated_distribution_invariant_witness :
    ((0:ℚ) ≤ 1/2 ∧ (0:ℚ) ≤ 1/4 ∧ (0:ℚ) ≤ 1/4 ∧
      (12:ℚ)/10^13 ≤ 1/2 + 1/4 + 1/4 ∧
      "Spinal Canal Stenosis" ∈ conditionNames ∧ "L1_L2" ∈ levelNames) ∧
    ∃ r, apply_condition_level_adjustments (1/2, 1/4, 1/4)
        "Spinal Canal Stenosis" "L1_L2" = some r ∧
      0 ≤ r.1 ∧ 0 ≤ r.2.1 ∧ 0 ≤ r.2.2 ∧ r.1 + r.2.1 + r.2.2 = 1 ∧
      |r.1 + r.2.1 + r.2.2 - 1| ≤ 1/10^6 :=
  ⟨⟨by norm_num, by norm_num, by norm_num, by norm_num, by decide, by decide⟩,
    claim_calibrated_distribution_invariant (1/2, 1/4, 1/4) _ _
      (by norm_num) (by norm_num) (by norm_num) (by norm_num) (by decide) (by decide)⟩

/-- Counterexample to claim C2 as frozen: the input (1e-15, 0, 0) has non
negative components, one strictly positive, and the pair is valid, yet the
calibrated output is (1/1000, 0, 0), whose sum 0.001 is not within 1e-6 of 1,
because the L1 norm 1e-15 of the weight scaled vector falls under the 1e-12
eps floor of F.normalize. -/
theorem claim_calibrated_distribution_invariant_cex :
    ((0:ℚ) ≤ 1/10^15 ∧ (0:ℚ) ≤ 0 ∧ (0:ℚ) < 1/10^15 ∧
      "Spinal Canal Stenosis" ∈ conditionNames ∧ "L1_L2" ∈ levelNames) ∧
    apply_condition_level_adjustments (1/10^15, 0, 0)
        "Spinal Canal Stenosis" "L1_L2" = some (1/1000, 0, 0) ∧
    ¬ |((1:ℚ)/1000 + 0 + 0) - 1| ≤ 1/10^6 := by
  refine ⟨⟨by norm_num, le_refl 0, by norm_num, by decide, by decide⟩, ?_, by
    rw [abs_of_nonpos (by norm_num)]
    norm_num⟩
  have ht : lookupLogLoss (conditionKey "Spinal Canal Stenosis") "L1_L2" =
      some (1067/10000) := by
    have hk : conditionKey "Spinal Canal Stenosis" = "Spinal Canal Stenosis" := by decide
    rw [hk]
    simp [lookupLogLoss, lookupKey, log_loss_thresholds, String.reduceEq]
  rw [apply_eq_of_logLoss ht]
  have hcw : conditionWeight "Spinal Canal Stenosis" = 1 := by
    simp [conditionWeight, lookupKey, condition_weights, String.reduceEq]
  have hlw : levelWeight "L1_L2" = 1 := by
    simp [levelWeight, lookupKey, level_weights, String.reduceEq]
  rw [hcw, hlw, if_neg (by norm_num)]
  have hmax : max (|((1:ℚ)/10^15) * (1 * 1)| + |(0:ℚ) * (1 * 1)| + |(0:ℚ) * (1 * 1)|)
      ((1:ℚ)/10^12) = 1/10^12 := by
    rw [max_eq_right]
    norm_num [abs_of_nonneg]
  simp only [l1normalize, hmax]
  norm_num

/-- Claim C5: the combined weight is the product of the two table weights,
with the fixed table values of the constructor, fallback defaults 0.95 and
0.90 for unrecognized labels, and for every valid pair the product lies in
the interval from 0.837 to 1. -/
theorem claim_weight_lookup_tables :
    (conditionWeight "Spinal Canal Stenosis" = 1 ∧
     conditionWeight "Left Neural Foraminal Narrowing" = 95/100 ∧
     conditionWeight "Right Neural Foraminal Narrowing" = 95/100 ∧
     conditionWeight "Left Subarticular Stenosis" = 93/100 ∧
     conditionWeight "Right Subarticular Stenosis" = 93/100) ∧
    (levelWeight "L1_L2" = 1 ∧ levelWeight "L2_L3" = 98/100 ∧
     levelWeight "L3_L4" = 95/100 ∧ levelWeight "L4_L5" = 90/100 ∧
     levelWeight "L5_S1" = 92/100) ∧
    (∀ c, c ∉ conditionNames → conditionWeight c = 95/100) ∧
    (∀ l, l ∉ levelNames → levelWeight l = 90/100) ∧
    (∀ c ∈ conditionNames, ∀ l ∈ levelNames,
      837/1000 ≤ conditionWeight c * levelWeight l ∧
        conditionWeight c * levelWeight l ≤ 1) := by
  refine ⟨⟨?_, ?_, ?_, ?_, ?_⟩, ⟨?_, ?_, ?_, ?_, ?_⟩, ?_, ?_, ?_⟩
  · simp only [conditionWeight, lookupKey, condition_weights, String.reduceEq,
      reduceIte, Option.getD_some]
  · simp only [conditionWeight, lookupKey, condition_weights, String.reduceEq,
      reduceIte, Option.getD_some]
  · simp only [conditionWeight, lookupKey, condition_weights, String.reduceEq,
      reduceIte, Option.getD_some]
  · simp only [conditionWeight, lookupKey, condition_weights, String.reduceEq,
      reduceIte, Option.getD_some]
  · simp only [conditionWeight, lookupKey, condition_weights, String.reduceEq,
      reduceIte, Option.getD_some]
  · simp only [levelWeight, lookupKey, level_weights, String.reduceEq,
      reduceIte, Option.getD_some]
  · simp only [levelWeight, lookupKey, level_weights, String.reduceEq,
      reduceIte, Option.getD_some]
  · simp only [levelWeight, lookupKey, level_weights, String.reduceEq,
      reduceIte, Option.getD_some]
  · simp only [levelWeight, lookupKey, level_weights, String.reduceEq,
      reduceIte, Option.getD_some]
  · simp only [levelWeight, lookupKey, level_weights, String.reduceEq,
      reduceIte, Option.getD_some]
  · intro c hcn
    have hnone : lookupKey c condition_weights = none :=
      (lookupKey_eq_none_iff c condition_weights).mpr (by simpa [conditionNames] using hcn)
    simp [conditionWeight, hnone]
  · intro l hln
    have hnone : lookupKey l level_weights = none :=
      (lookupKey_eq_none_iff l level_weights).mpr (by simpa [levelNames] using hln)
    norm_num [levelWeight, hnone]
  · intro c hc l hl
    obtain ⟨hcw1, hcw2⟩ := conditionWeight_bounds c hc
    obtain ⟨hlw1, hlw2⟩ := levelWeight_bounds l hl
    have hlow := mul_le_mul hcw1 hlw1 (by norm_num) (le_trans (by norm_num) hcw1)
    have hup := mul_le_one₀ hcw2 (le_trans (by norm_num) hlw1) hlw2
    exact ⟨by linarith, hup⟩

/-- Witness for claim C5 at concrete labels, including the fallback branch. -/
theorem claim_weight_lookup_tables_witness :
    ("Totally Unknown" ∉ conditionNames ∧ conditionWeight "Totally Unknown" = 95/100) ∧
    ("L9_S9" ∉ levelNames ∧ levelWeight "L9_S9" = 90/100) ∧
    ("Left Subarticular Stenosis" ∈ conditionNames ∧ "L4_L5" ∈ levelNames ∧
      837/1000 ≤ conditionWeight "Left Subarticular Stenosis" * levelWeight "L4_L5" ∧
      conditionWeight "Left Subarticular Stenosis" * levelWeight "L4_L5" ≤ 1) := by
  obtain ⟨-, -, hfc, hfl, hrange⟩ := claim_weight_lookup_tables
  have h := hrange "Left Subarticular Stenosis" (by decide) "L4_L5" (by decide)
  exact ⟨⟨by decide, hfc _ (by decide)⟩, ⟨by decide, hfl _ (by decide)⟩,
    by decide, by decide, h.1, h.2⟩

/-- Claim C7: for the raw distribution (0.2, 0.3, 0.5) with condition Left
Subarticular Stenosis and level L4_L5 the family resolves to Subarticular
Stenosis with log loss 1.1551, the bias path triggers, and the output is
exactly the L1 normalization of the weight scaled, bias corrected vector. -/
theorem claim_subarticular_L4L5_scenario :
    conditionKey "Left Subarticular Stenosis" = "Subarticular Stenosis" ∧
    lookupLogLoss "Subarticular Stenosis" "L4_L5" = some (11551/10000) ∧
    ((8:ℚ)/10 < 11551/10000) ∧
    apply_condition_level_adjustments (2/10, 3/10, 5/10)
        "Left Subarticular Stenosis" "L4_L5" =
      some (l1normalize ((2/10) * ((93/100) * (90/100)) + 1/10,
        (3/10) * ((93/100) * (90/100)) * (95/100),
        (5/10) * ((93/100) * (90/100)) * (9/10))) := by
  refine ⟨by decide, ?_, by norm_num, ?_⟩
  · simp [lookupLogLoss, lookupKey, log_loss_thresholds, String.reduceEq]
  · have hk : conditionKey "Left Subarticular Stenosis" = "Subarticular Stenosis" := by
      decide
    simp only [apply_condition_level_adjustments, hk, lookupLogLoss, lookupKey,
      log_loss_thresholds, conditionWeight, levelWeight, condition_weights, level_weights,
      Option.getD_some, Option.some_bind, String.reduceEq, if_true, if_false,
      reduceIte, Option.bind_some]
    norm_num

/-- Claim C10: for a condition string outside the three family patterns, or a
level string outside the five recognized levels, the adjustment function
fails with a KeyError at the log loss lookup before producing any output, so
the fallback default weights never yield a completed calibrated result. -/
theorem claim_unknown_label_keyerror (p : ℚ × ℚ × ℚ) (c l : String) :
    (strContains c "Neural Foraminal Narrowing" = false →
      strContains c "Subarticular Stenosis" = false →
      c ≠ "Spinal Canal Stenosis" →
      apply_condition_level_adjustments p c l = none) ∧
    (l ∉ levelNames → apply_condition_level_adjustments p c l = none) := by
  constructor
  · intro hn hs hne
    have hkey : conditionKey c = c := by simp [conditionKey, hn, hs]
    have h1 : c ≠ "Neural Foraminal Narrowing" := by
      intro h
      rw [h] at hn
      simp [strContains_self] at hn
    have h2 : c ≠ "Subarticular Stenosis" := by
      intro h
      rw [h] at hs
      simp [strContains_self] at hs
    have hnone : lookupKey c log_loss_thresholds = none := by
      rw [lookupKey_eq_none_iff]
      simp [log_loss_thresholds, hne, h1, h2]
    simp [apply_condition_level_adjustments, lookupLogLoss, hkey, hnone]
  · intro hl
    rcases hrow : lookupKey (conditionKey c) log_loss_thresholds with _ | row
    · simp [apply_condition_level_adjustments, lookupLogLoss, hrow]
    · have hmem := lookupKey_mem_values hrow
      have hnone : lookupKey l row = none := by
        rw [lookupKey_eq_none_iff]
        simp only [log_loss_thresholds, List.map_cons, List.map_nil, List.mem_cons,
          List.not_mem_nil, or_false] at hmem
        rcases hmem with h | h | h <;> subst h <;>
          simpa [levelNames, level_weights] using hl
      simp [apply_condition_level_adjustments, lookupLogLoss, hrow, hnone]

/-- Witness for claim C10 at concrete unknown labels. -/
theorem claim_unknown_label_keyerror_witness :
    (strContains "Totally Unknown Condition" "Neural Foraminal Narrowing" = false ∧
     strContains "Totally Unknown Condition" "Subarticular Stenosis" = false ∧
     "Totally Unknown Condition" ≠ "Spinal Canal Stenosis" ∧
     apply_condition_level_adjustments (1, 0, 0) "Totally Unknown Condition" "L1_L2" = none) ∧
    ("L9_S9" ∉ levelNames ∧
     apply_condition_level_adjustments (1, 0, 0) "Spinal Canal Stenosis" "L9_S9" = none) := by
  constructor
  · exact ⟨by decide, by decide, by decide,
      (claim_unknown_label_keyerror (1, 0, 0) _ _).1 (by decide) (by decide) (by decide)⟩
  · exact ⟨by decide, (claim_unknown_label_keyerror (1, 0, 0) _ _).2 (by decide)⟩

theorem condition_map_keys : condition_map.map Prod.fst = conditionNames := by decide

theorem level_map_keys : level_map.map Prod.fst = levelNames := by decide

theorem condition_map_values_lt {c : String} {ci : Nat}
    (h : lookupKey c condition_map = some ci) : ci < 5 := by
  have hm := lookupKey_mem_values h
  simp only [condition_map, List.map_cons, List.map_nil, List.mem_cons,
    List.not_mem_nil, or_false] at hm
  rcases hm with h | h | h | h | h <;> subst h <;> omega

theorem level_map_values_lt {l : String} {li : Nat}
    (h : lookupKey l level_map = some li) : li < 5 := by
  have hm := lookupKey_mem_values h
  simp only [level_map, List.map_cons, List.map_nil, List.mem_cons,
    List.not_mem_nil, or_false] at hm
  rcases hm with h | h | h | h | h <;> subst h <;> omega

theorem onehot5_get : ∀ i < 5, ∀ j < 5,
    (onehot5 i).get? j = some (if j = i then 1 else 0) := by decide

/-- Claim C3: preprocess_input, and hence predict, fails exactly when the
condition or the level string is outside its fixed five value enumeration;
for valid labels it produces length 5 one hot vectors with the 1 at the
enumeration index of the label. -/
theorem claim_preprocess_onehot {Img : Type} (img : Img) (c l : String) :
    (preprocess_input img c l = none ↔ (c ∉ conditionNames ∨ l ∉ levelNames)) ∧
    (∀ ci li, lookupKey c condition_map = some ci → lookupKey l level_map = some li →
      preprocess_input img c l = some (img, onehot5 ci, onehot5 li) ∧
      (onehot5 ci).length = 5 ∧ (onehot5 li).length = 5 ∧
      (∀ j, j < 5 → (onehot5 ci).get? j = some (if j = ci then 1 else 0)) ∧
      (∀ j, j < 5 → (onehot5 li).get? j = some (if j = li then 1 else 0))) ∧
    (∀ model : Img → List ℚ → List ℚ → ℚ × ℚ × ℚ,
      (predict model img c l).isSome ↔ (c ∈ conditionNames ∧ l ∈ levelNames)) := by
  have hiff : preprocess_input img c l = none ↔ (c ∉ conditionNames ∨ l ∉ levelNames) := by
    constructor
    · intro h
      rcases hci : lookupKey c condition_map with _ | ci
      · exact Or.inl (condition_map_keys ▸ (lookupKey_eq_none_iff c condition_map).mp hci)
      · rcases hli : lookupKey l level_map with _ | li
        · exact Or.inr (level_map_keys ▸ (lookupKey_eq_none_iff l level_map).mp hli)
        · simp [preprocess_input, hci, hli] at h
    · intro h
      rcases h with h | h
      · have hn : lookupKey c condition_map = none :=
          (lookupKey_eq_none_iff c condition_map).mpr (condition_map_keys ▸ h)
        simp [preprocess_input, hn]
      · have hn : lookupKey l level_map = none :=
          (lookupKey_eq_none_iff l level_map).mpr (level_map_keys ▸ h)
        rcases hci : lookupKey c condition_map with _ | ci <;>
          simp [preprocess_input, hci, hn]
  refine ⟨hiff, ?_, ?_⟩
  · intro ci li hci hli
    refine ⟨by simp [preprocess_input, hci, hli], by simp [onehot5], by simp [onehot5],
      ?_, ?_⟩
    · intro j hj
      exact onehot5_get ci (condition_map_values_lt hci) j hj
    · intro j hj
      exact onehot5_get li (level_map_values_lt hli) j hj
  · intro model
    constructor
    · intro h
      by_contra hn
      rw [not_and_or] at hn
      have hpre : preprocess_input img c l = none := hiff.mpr hn
      simp [predict, hpre] at h
    · rintro ⟨hcm, hlm⟩
      obtain ⟨ci, hci⟩ := lookupKey_isSome_of_mem c condition_map
        (condition_map_keys ▸ hcm)
      obtain ⟨li, hli⟩ := lookupKey_isSome_of_mem l level_map
        (level_map_keys ▸ hlm)
      simp [predict, preprocess_input, hci, hli, processSample,
        apply_eq_specAdjusted hcm hlm]

/-- Witness for claim C3 at a concrete image and valid labels. -/
theorem claim_preprocess_onehot_witness :
    (lookupKey "Spinal Canal Stenosis" condition_map = some 0 ∧
     lookupKey "L3_L4" level_map = some 2) ∧
    (preprocess_input (0 : Nat) "Spinal Canal Stenosis" "L3_L4" =
        some (0, onehot5 0, onehot5 2) ∧
      (onehot5 0).length = 5 ∧ (onehot5 2).length = 5 ∧
      (∀ j, j < 5 → (onehot5 0).get? j = some (if j = 0 then 1 else 0)) ∧
      (∀ j, j < 5 → (onehot5 2).get? j = some (if j = 2 then 1 else 0))) :=
  ⟨⟨by decide, by decide⟩,
    (claim_preprocess_onehot (0 : Nat) "Spinal Canal Stenosis" "L3_L4").2.1 0 2
      (by decide) (by decide)⟩

/-- Claim C6: get_prediction_confidence computes the maximum probability
times one minus the epsilon perturbed entropy divided by log 3, and for the
uniform distribution with the epsilon perturbation ignored the confidence is
exactly zero. -/
theorem claim_confidence_formula :
    (∀ p : ℝ × ℝ × ℝ, get_prediction_confidence (1/10^7) p =
      max p.1 (max p.2.1 p.2.2) *
        (1 - (-(p.1 * Real.log (p.1 + 1/10^7) + p.2.1 * Real.log (p.2.1 + 1/10^7) +
          p.2.2 * Real.log (p.2.2 + 1/10^7))) / Real.log 3)) ∧
    get_prediction_confidence 0 (1/3, 1/3, 1/3) = 0 := by
  constructor
  · intro p
    rfl
  · have h3 : Real.log 3 ≠ 0 := ne_of_gt (Real.log_pos (by norm_num))
    have hlog : Real.log ((1:ℝ)/3 + 0) = -Real.log 3 := by
      rw [add_zero, one_div, Real.log_inv]
    simp only [get_prediction_confidence, entropyTerm, hlog]
    rw [max_self, max_self]
    have he : -((1:ℝ)/3 * -Real.log 3 + (1:ℝ)/3 * -Real.log 3 + (1:ℝ)/3 * -Real.log 3) =
        Real.log 3 := by ring
    rw [he, div_self h3]
    ring

/-- Claim C9: the confidence score is not clamped to the unit interval: for
the valid distribution (1, 0, 0), whose components are non negative and sum
to 1, the epsilon term inside the logarithm pushes the confidence strictly
above 1. -/
theorem claim_confidence_unclamped :
    ((0:ℝ) ≤ 1 ∧ (0:ℝ) ≤ 0 ∧ ((1:ℝ) + 0 + 0 = 1)) ∧
    1 < get_prediction_confidence (1/10^7) (1, 0, 0) := by
  refine ⟨⟨by norm_num, le_refl 0, by norm_num⟩, ?_⟩
  have hl3 : 0 < Real.log 3 := Real.log_pos (by norm_num)
  have hle : 0 < Real.log (1 + 1/10^7) := Real.log_pos (by norm_num)
  have hdiv : 0 < Real.log (1 + 1/10^7) / Real.log 3 := div_pos hle hl3
  simp only [get_prediction_confidence, entropyTerm]
  rw [show max (1:ℝ) (max 0 0) = 1 by norm_num,
    show -((1:ℝ) * Real.log (1 + 1/10^7) + 0 * Real.log (0 + 1/10^7) +
      0 * Real.log (0 + 1/10^7)) = -Real.log (1 + 1/10^7) by ring,
    one_mul, neg_div, sub_neg_eq_add]
  linarith

theorem batchLoop_relabel {Img Sid Sid2 : Type} (f : Sid → Sid2)
    (ss : List (Sample Img Sid)) (ps : List (ℚ × ℚ × ℚ)) :
    batchLoop (ss.map (fun s => ⟨s.image, s.condition, s.level, f s.study_id⟩)) ps =
      batchLoop ss ps := by
  induction ss generalizing ps with
  | nil => rfl
  | cons s ss ih =>
    cases ps with
    | nil => rfl
    | cons p ps => simp [batchLoop, ih]

theorem batch_predict_relabel {Img Sid Sid2 : Type} (f : Sid → Sid2)
    (model : List (Img × List ℚ × List ℚ) → List (ℚ × ℚ × ℚ))
    (dl : List (List (Sample Img Sid))) :
    batch_predict model
        (dl.map (List.map (fun s => ⟨s.image, s.condition, s.level, f s.study_id⟩))) =
      batch_predict model dl := by
  induction dl with
  | nil => rfl
  | cons b bs ih =>
    have hproj : (b.map (fun s =>
        (⟨s.image, s.condition, s.level, f s.study_id⟩ : Sample Img Sid2))).map projSample =
          b.map projSample := by
      simp [List.map_map, Function.comp_def, projSample]
    simp only [List.map_cons, batch_predict, hproj, batchLoop_relabel f b, ih]

/-- Claim C4 (amended): batch_predict never reads the study identifier and its
per sample outputs carry no study identifier field, so the output is invariant
under every relabeling of the study identifiers; downstream correlation has to
rely on the order of the results instead of a passed through identifier. -/
theorem claim_study_id_ignored {Img Sid Sid2 : Type} (f : Sid → Sid2)
    (model : List (Img × List ℚ × List ℚ) → List (ℚ × ℚ × ℚ))
    (dl : List (List (Sample Img Sid))) :
    batch_predict model
        (dl.map (List.map (fun s => ⟨s.image, s.condition, s.level, f s.study_id⟩))) =
      batch_predict model dl :=
  batch_predict_relabel f model dl

/-- Counterexample to claim C4 as frozen: two one sample batches that differ
only in their study identifier (42 versus 7) produce identical batch_predict
outputs, so no study identifier information reaches the output. -/
theorem claim_study_id_ignored_cex :
    batch_predict (fun _ => [(1/2, 1/4, 1/4)])
        [[(⟨(), onehot5 0, onehot5 0, 42⟩ : Sample Unit Nat)]] =
      batch_predict (fun _ => [(1/2, 1/4, 1/4)])
        [[(⟨(), onehot5 0, onehot5 0, 7⟩ : Sample Unit Nat)]] := by
  have h := batch_predict_relabel (fun _ : Nat => 7)
    (fun _ => [((1:ℚ)/2, (1:ℚ)/4, (1:ℚ)/4)])
    [[(⟨(), onehot5 0, onehot5 0, 42⟩ : Sample Unit Nat)]]
  simpa using h

theorem decodeCondition_get : ∀ i : Fin 5,
    conditionNames[argmaxList (onehot5 i)]? =
      some (decodeConditionName (onehot5 i)) := by decide

theorem decodeLevel_get : ∀ j : Fin 5,
    levelNames[argmaxList (onehot5 j)]? =
      some (decodeLevelName (onehot5 j)) := by decide

theorem decodeCondition_mem : ∀ i : Fin 5,
    decodeConditionName (onehot5 i) ∈ conditionNames := by decide

theorem decodeLevel_mem : ∀ j : Fin 5,
    decodeLevelName (onehot5 j) ∈ levelNames := by decide

theorem batchLoop_spec {Img Sid : Type} (ss : List (Sample Img Sid))
    (ps : List (ℚ × ℚ × ℚ)) (hlen : ps.length = ss.length)
    (hoh : ∀ s ∈ ss, (∃ i : Fin 5, s.condition = onehot5 i) ∧
      (∃ j : Fin 5, s.level = onehot5 j)) :
    batchLoop ss ps = some (List.zipWith specSampleResult ss ps) := by
  induction ss generalizing ps with
  | nil => rfl
  | cons s ss ih =>
    cases ps with
    | nil => simp at hlen
    | cons p ps =>
      obtain ⟨⟨i, hci⟩, ⟨j, hlj⟩⟩ := hoh s (List.mem_cons_self s ss)
      have h1 : conditionNames[argmaxList s.condition]? =
          some (decodeConditionName s.condition) := by
        rw [hci]
        exact decodeCondition_get i
      have h2 : levelNames[argmaxList s.level]? =
          some (decodeLevelName s.level) := by
        rw [hlj]
        exact decodeLevel_get j
      have hcmem : decodeConditionName s.condition ∈ conditionNames := by
        rw [hci]
        exact decodeCondition_mem i
      have hlmem : decodeLevelName s.level ∈ levelNames := by
        rw [hlj]
        exact decodeLevel_mem j
      have hps : processSample p (decodeConditionName s.condition)
          (decodeLevelName s.level) = some (specSampleResult s p) := by
        simp [processSample, apply_eq_specAdjusted hcmem hlmem, specSampleResult]
      have hrest : batchLoop ss ps = some (List.zipWith specSampleResult ss ps) :=
        ih ps (by simpa using hlen) (fun t ht => hoh t (List.mem_cons_of_mem s ht))
      simp [batchLoop, h1, h2, hps, hrest]

/-- Claim C8: given that the model returns one probability row per sample of
each batch and every sample carries genuine one hot labels, batch_predict
succeeds with exactly one result per input sample, in input order, and each
result is the value the per sample pipeline produces for the labels recovered
from the one hot rows by reverse lookup into the fixed enumerations. -/
theorem claim_batch_predict_pipeline {Img Sid : Type}
    (model : List (Img × List ℚ × List ℚ) → List (ℚ × ℚ × ℚ))
    (dl : List (List (Sample Img Sid)))
    (hlen : ∀ b ∈ dl, (model (b.map projSample)).length = b.length)
    (hoh : ∀ b ∈ dl, ∀ s ∈ b, (∃ i : Fin 5, s.condition = onehot5 i) ∧
      (∃ j : Fin 5, s.level = onehot5 j)) :
    ∃ results, batch_predict model dl = some results ∧
      results = (dl.map (fun b =>
        List.zipWith specSampleResult b (model (b.map projSample)))).flatten ∧
      results.length = (dl.map List.length).sum := by
  induction dl with
  | nil => exact ⟨[], rfl, rfl, rfl⟩
  | cons b bs ih =>
    obtain ⟨rs, hrs, hflat, hlenr⟩ := ih
      (fun b hb => hlen b (List.mem_cons_of_mem _ hb))
      (fun b hb => hoh b (List.mem_cons_of_mem _ hb))
    have hb := batchLoop_spec b (model (b.map projSample))
      (hlen b (List.mem_cons_self b bs)) (hoh b (List.mem_cons_self b bs))
    refine ⟨List.zipWith specSampleResult b (model (b.map projSample)) ++ rs, ?_, ?_, ?_⟩
    · simp [batch_predict, hb, hrs]
    · simp [hflat]
    · simp only [List.length_append, List.length_zipWith,
        hlen b (List.mem_cons_self b bs), hlenr, List.map_cons, List.sum_cons, min_self]

/-- Witness for claim C8 on a one batch, one sample dataloader. -/
theorem claim_batch_predict_pipeline_witness :
    ((∀ b ∈ ([[⟨(), onehot5 0, onehot5 1, (0 : Nat)⟩]] :
        List (List (Sample Unit Nat))),
      ((fun xs : List (Unit × List ℚ × List ℚ) =>
          xs.map (fun _ => ((1:ℚ)/2, (1:ℚ)/4, (1:ℚ)/4)))
        (b.map projSample)).length = b.length) ∧
     (∀ b ∈ ([[⟨(), onehot5 0, onehot5 1, (0 : Nat)⟩]] :
        List (List (Sample Unit Nat))), ∀ s ∈ b,
      (∃ i : Fin 5, s.condition = onehot5 i) ∧ (∃ j : Fin 5, s.level = onehot5 j))) ∧
    ∃ results,
      batch_predict (fun xs => xs.map (fun _ => ((1:ℚ)/2, (1:ℚ)/4, (1:ℚ)/4)))
          ([[⟨(), onehot5 0, onehot5 1, (0 : Nat)⟩]] :
            List (List (Sample Unit Nat))) = some results ∧
      results = (([[⟨(), onehot5 0, onehot5 1, (0 : Nat)⟩]] :
          List (List (Sample Unit Nat))).map (fun b =>
        List.zipWith specSampleResult b
          ((fun xs : List (Unit × List ℚ × List ℚ) =>
            xs.map (fun _ => ((1:ℚ)/2, (1:ℚ)/4, (1:ℚ)/4))) (b.map projSample)))).flatten ∧
      results.length = (([[⟨(), onehot5 0, onehot5 1, (0 : Nat)⟩]] :
        List (List (Sample Unit Nat))).map List.length).sum :=
  ⟨⟨by decide, by decide⟩,
    claim_batch_predict_pipeline
      (fun xs => xs.map (fun _ => ((1:ℚ)/2, (1:ℚ)/4, (1:ℚ)/4)))
      [[⟨(), onehot5 0, onehot5 1, (0 : Nat)⟩]] (by decide) (by decide)⟩

end LumbarPipeline
